import Mathlib

/-!
Shallow embedding of `packages/dev-tools/src/validate-repo-structure.ts`:
the repository-structure validator (tree walker + eight rules accumulating
`ValidationError` records, then an exit-code decision).

The filesystem is modelled as a tree of entries; JavaScript strings are
Lean `String`s; `readdir` failure on the starting directory is modelled by
an `Option` on the starting listing (the source catches the exception and
returns).  JS `String.prototype.toLowerCase` is modelled on the ASCII range
(all extensions the validator compares against are ASCII).
-/

namespace RepoValidate

/-- `ERROR_TYPES` constants of the source (`forbidden-directory`,
`large-file`, `structural-violation`). -/
inductive ErrType where
  | forbiddenDirectory
  | largeFile
  | structuralViolation
deriving DecidableEq, Repr

/-- Severity of a violation: `error` or `warning`. -/
inductive Severity where
  | error
  | warning
deriving DecidableEq, Repr

/-- The `ValidationError` record of the source. -/
structure ValidationError where
  type : ErrType
  path : String
  message : String
  severity : Severity
deriving DecidableEq, Repr

/-! A filesystem entry as seen through `readdir(..., { withFileTypes: true })`:
a regular file (with its `stat` size in bytes), a directory with its
listing, or any other kind of entry (symlink, socket, FIFO ...) for which
both `isDirectory()` and `isFile()` are false; `sub` records whatever the
entry points at, which the walker never reads.  A listing is a directory's
`readdir` result in order. -/
mutual
/-- A single filesystem entry. -/
inductive FSEntry where
  | file (name : String) (size : Nat)
  | dir (name : String) (contents : FSListing)
  | other (name : String) (sub : FSListing)

/-- A directory listing in `readdir` order. -/
inductive FSListing where
  | nil
  | cons (e : FSEntry) (rest : FSListing)
end

/-- Build a listing from a Lean list of entries (for concrete examples). -/
def listing : List FSEntry → FSListing
  | [] => FSListing.nil
  | e :: t => FSListing.cons e (listing t)

/-- View a listing as a Lean list of entries. -/
def FSListing.toList : FSListing → List FSEntry
  | FSListing.nil => []
  | FSListing.cons e t => e :: t.toList

/-- The name of an entry (`entry.name`). -/
def entryName : FSEntry → String
  | .file n _ => n
  | .dir n _ => n
  | .other n _ => n

/-- A callback invocation performed by `walkDirectory`: `onDirectory` or
`onFile` with the entry name, the joined relative path and (for files)
the stat size used by `validateTestFixtureSizes`. -/
inductive WalkEvent where
  | dirVisit (name : String) (relPath : String)
  | fileVisit (name : String) (relPath : String) (size : Nat)
deriving DecidableEq, Repr

/-- `join(relativePath, entry.name)` on a POSIX host; `join('.', n)`
normalizes to `n`. -/
def pathJoin (a b : String) : String :=
  if a = "." then b else a ++ "/" ++ b

/-! The recursive loop of `walkDirectory`, emitting the callback
invocations in source order: for a directory not in `skipDirs`,
`onDirectory` fires before the subtree; a directory in `skipDirs` is skipped
with its whole subtree (`continue`); entries that are neither directories
nor regular files get no callback and are not descended into.
`walkEntry` handles one loop iteration, `walkListing` the whole listing. -/
mutual
/-- Walk one `readdir` entry. -/
def walkEntry (skip : List String) (rel : String) : FSEntry → List WalkEvent
  | FSEntry.file n s => [WalkEvent.fileVisit n (pathJoin rel n) s]
  | FSEntry.dir n cs =>
      if skip.contains n then []
      else WalkEvent.dirVisit n (pathJoin rel n) ::
             walkListing skip (pathJoin rel n) cs
  | FSEntry.other _ _ => []

/-- Walk all entries of one listing in order. -/
def walkListing (skip : List String) (rel : String) : FSListing → List WalkEvent
  | FSListing.nil => []
  | FSListing.cons e rest =>
      walkEntry skip rel e ++ walkListing skip rel rest
end

/-- `walkDirectory` from a starting directory: `none` models a starting
directory whose `readdir` throws (missing or unreadable); the source
catches that and returns with no callback invoked. -/
def walkStart (skip : List String) (rel : String) :
    Option FSListing → List WalkEvent
  | none => []
  | some l => walkListing skip rel l

/-- Run per-entry emitters over the callback stream of a walk, concatenating
the violations each callback pushes, in push order. -/
def emitAll (onDir : String → String → List ValidationError)
    (onFile : String → String → Nat → List ValidationError)
    (evs : List WalkEvent) : List ValidationError :=
  (evs.map (fun e =>
    match e with
    | WalkEvent.dirVisit n p => onDir n p
    | WalkEvent.fileVisit n p s => onFile n p s)).flatten

/-- An `onDirectory` handler that pushes nothing (rule has no directory
callback). -/
def noDirEmit (_n _p : String) : List ValidationError := []

/-- An `onFile` handler that pushes nothing (rule has no file callback). -/
def noFileEmit (_n _p : String) (_s : Nat) : List ValidationError := []

/-! ## String helpers modelling the JavaScript primitives used -/

/-- JS `String.prototype.endsWith`. -/
def jsEndsWith (s suffix : String) : Bool :=
  suffix.toList.isSuffixOf s.toList

/-- Does `sub` occur as a contiguous run inside `l`? -/
def containsRun (sub : List Char) : List Char → Bool
  | [] => sub.isPrefixOf []
  | c :: t => sub.isPrefixOf (c :: t) || containsRun sub t

/-- JS `String.prototype.includes`. -/
def jsIncludes (s sub : String) : Bool :=
  containsRun sub.toList s.toList

/-- JS `relPath.replaceAll('\\', '/')` (single-character replacement). -/
def normalizeSep (p : String) : String :=
  String.mk (p.toList.map (fun c => if c = '\\' then '/' else c))

/-- ASCII lower-casing of one character, as JS `toLowerCase` acts on the
ASCII range. -/
def jsCharLower (c : Char) : Char :=
  match c with
  | 'A' => 'a' | 'B' => 'b' | 'C' => 'c' | 'D' => 'd' | 'E' => 'e'
  | 'F' => 'f' | 'G' => 'g' | 'H' => 'h' | 'I' => 'i' | 'J' => 'j'
  | 'K' => 'k' | 'L' => 'l' | 'M' => 'm' | 'N' => 'n' | 'O' => 'o'
  | 'P' => 'p' | 'Q' => 'q' | 'R' => 'r' | 'S' => 's' | 'T' => 't'
  | 'U' => 'u' | 'V' => 'v' | 'W' => 'w' | 'X' => 'x' | 'Y' => 'y'
  | 'Z' => 'z'
  | c => c

/-- JS `String.prototype.toLowerCase` on the ASCII range. -/
def jsToLower (s : String) : String :=
  String.mk (s.toList.map jsCharLower)

/-- Character-level core of `name.substring(name.lastIndexOf('.'))`: from
the last dot to the end when a dot exists, the whole list otherwise. -/
def extChars (l : List Char) : List Char :=
  if '.' ∈ l then '.' :: (l.reverse.takeWhile (fun c => c != '.')).reverse
  else l

/-- JS `name.substring(name.lastIndexOf('.'))`: the substring from the last
dot to the end; when there is no dot, `lastIndexOf` yields `-1` and
`substring` clamps it to `0`, giving the whole name back. -/
def extOf (name : String) : String :=
  String.mk (extChars name.toList)

/-- The lowercased last-dot extension, as both extension-based rules
compute it. -/
def lowerExt (name : String) : String :=
  jsToLower (extOf name)

/-! ## Configuration and skip sets -/

/-- `ValidatorConfig` of the source; the optional RegExp lists are modelled
as lists of string predicates. -/
structure ValidatorConfig where
  allowedScriptsPackages : Option (List String)
  noExamplesPatterns : Option (List (String → Bool))
  allowedRootTsFiles : Option (List String)
  allowedPackageTsPaths : Option (List (String → Bool))

/-- The empty configuration (all fields absent, as when no
`repo-structure-config` module is found). -/
def emptyConfig : ValidatorConfig := ⟨none, none, none, none⟩

/-- `COMMON_SKIP_DIRS`. -/
def commonSkipDirs : List String := ["node_modules", "dist", ".git"]

/-- `SKIP_DIRS_WITH_HUSKY` = common ∪ `{.husky, .worktrees}`. -/
def skipDirsWithHusky : List String := commonSkipDirs ++ [".husky", ".worktrees"]

/-- The skip set of `validateNoNestedPackageJson`: common ∪ `{.worktrees}`. -/
def nestedPkgSkipDirs : List String := commonSkipDirs ++ [".worktrees"]

/-! ## Path classifiers (the regular expressions of the source as
structural matchers over the '/'-split of the normalized path) -/

/-- `/^packages\/[^\/]+\/package\.json$/` : exactly
`packages/<name>/package.json` with a nonempty slash-free `<name>`. -/
def isInPackagesDirPath (np : String) : Bool :=
  match np.splitOn "/" with
  | ["packages", n, "package.json"] => !n.isEmpty
  | _ => false

/-- `/^packages\/[^\/]+\/test\/fixtures\//` : a prefix
`packages/<name>/test/fixtures/` with nonempty slash-free `<name>`. -/
def isInTestFixturesPath (np : String) : Bool :=
  match np.splitOn "/" with
  | "packages" :: n :: "test" :: "fixtures" :: _ :: _ => !n.isEmpty
  | _ => false

/-- `/^packages\/[^\/]+\/<sub>\//` : path under `packages/<name>/<sub>/`. -/
def pkgSubdirPattern (sub : String) (np : String) : Bool :=
  match np.splitOn "/" with
  | "packages" :: n :: s :: _ :: _ => !n.isEmpty && s == sub
  | _ => false

/-- `PACKAGE_CONFIG_PATTERN` :
`packages/<name>/(vitest.(config|integration.config|system.config)|knip.config).ts`. -/
def packageConfigPattern (np : String) : Bool :=
  match np.splitOn "/" with
  | ["packages", n, f] =>
      !n.isEmpty &&
        ["vitest.config.ts", "vitest.integration.config.ts",
          "vitest.system.config.ts", "knip.config.ts"].contains f
  | _ => false

/-- `BUILT_IN_ROOT_TS_FILES`. -/
def builtInRootTsFiles : List String :=
  ["eslint.config.ts", "vitest.config.ts", "vitest.integration.config.ts",
    "vitest.system.config.ts", "vitest.workspace.ts"]

/-- `BUILT_IN_PACKAGE_PATTERNS`. -/
def builtInPackagePatterns : List (String → Bool) :=
  [pkgSubdirPattern "src", pkgSubdirPattern "test", pkgSubdirPattern "examples",
    pkgSubdirPattern "generated", pkgSubdirPattern "scripts"]

/-! ## Rule: no nested package.json (`validateNoNestedPackageJson`) -/

/-- The `onFile` body of `validateNoNestedPackageJson`. -/
def nestedPackageJsonOnFile (name relPath : String) : List ValidationError :=
  if name == "package.json" then
    let normalizedPath := normalizeSep relPath
    let isRootPackageJson := normalizedPath == "package.json"
    let isInPackagesDir := isInPackagesDirPath normalizedPath
    let isInTestFixtures := isInTestFixturesPath normalizedPath
    if !isRootPackageJson && !isInPackagesDir && !isInTestFixtures then
      [{ type := ErrType.forbiddenDirectory, path := relPath,
         message := "Nested package.json detected. Only root, packages/*/, and test/fixtures/ can have package.json files.",
         severity := Severity.error }]
    else []
  else []

/-- `validateNoNestedPackageJson`: full-tree walk with the common+worktrees
skip set, applying the manifest-location check to every file. -/
def validateNoNestedPackageJson (root : FSListing) : List ValidationError :=
  emitAll noDirEmit (fun n p _ => nestedPackageJsonOnFile n p)
    (walkListing nestedPkgSkipDirs "." root)

/-! ## Rule: source file locations (`validateSourceFileLocations`) -/

/-- The `onFile` body of `validateSourceFileLocations`. -/
def sourceLocationOnFile (config : ValidatorConfig) (name relPath : String) :
    List ValidationError :=
  if !(jsEndsWith name ".ts") then []
  else
    let normalizedPath := normalizeSep relPath
    let allowedRootTsFiles :=
      builtInRootTsFiles ++ (config.allowedRootTsFiles.getD [])
    if allowedRootTsFiles.contains normalizedPath then []
    else if packageConfigPattern normalizedPath then []
    else
      let allowedPackagePatterns :=
        builtInPackagePatterns ++ (config.allowedPackageTsPaths.getD [])
      if allowedPackagePatterns.any (fun p => p normalizedPath) then []
      else
        [{ type := ErrType.structuralViolation, path := relPath,
           message := "TypeScript file in wrong location. Source files must be in packages/*/src/, packages/*/test/, or other configured locations.",
           severity := Severity.error }]

/-- `validateSourceFileLocations`: full-tree walk with the husky+worktrees
skip set. -/
def validateSourceFileLocations (config : ValidatorConfig)
    (root : FSListing) : List ValidationError :=
  emitAll noDirEmit (fun n p _ => sourceLocationOnFile config n p)
    (walkListing skipDirsWithHusky "." root)

/-! ## Rule: test file naming (`validateTestFileNaming`) -/

/-- The `onFile` body of `validateTestFileNaming`: four independent checks,
each pushing its own violation. -/
def testFileNamingOnFile (name relPath : String) : List ValidationError :=
  let normalizedPath := normalizeSep relPath
  (if jsEndsWith name ".spec.ts" then
    [{ type := ErrType.structuralViolation, path := relPath,
       message := "Use .test.ts instead of .spec.ts for consistency.",
       severity := Severity.error }]
   else []) ++
  (if jsEndsWith name ".integration.test.ts"
      && !(jsIncludes normalizedPath "/test/integration/") then
    [{ type := ErrType.structuralViolation, path := relPath,
       message := "Integration tests must be in test/integration/ directory.",
       severity := Severity.error }]
   else []) ++
  (if jsEndsWith name ".system.test.ts"
      && !(jsIncludes normalizedPath "/test/system/") then
    [{ type := ErrType.structuralViolation, path := relPath,
       message := "System tests must be in test/system/ directory.",
       severity := Severity.error }]
   else []) ++
  (if jsEndsWith name ".test.ts"
      && !(jsEndsWith name ".integration.test.ts")
      && !(jsEndsWith name ".system.test.ts")
      && (jsIncludes normalizedPath "/test/integration/"
          || jsIncludes normalizedPath "/test/system/") then
    [{ type := ErrType.structuralViolation, path := relPath,
       message := "Unit tests in integration/system directories must use .integration.test.ts or .system.test.ts suffix.",
       severity := Severity.error }]
   else [])

/-- `validateTestFileNaming`: full-tree walk with the common skip set. -/
def validateTestFileNaming (root : FSListing) : List ValidationError :=
  emitAll noDirEmit (fun n p _ => testFileNamingOnFile n p)
    (walkListing commonSkipDirs "." root)

/-! ## Rule: no shell scripts (`validateNoShellScripts`) -/

/-- `FORBIDDEN_EXTENSIONS`. -/
def forbiddenShellExtensions : List String := [".sh", ".ps1", ".bat", ".cmd"]

/-- The `onFile` body of `validateNoShellScripts`. -/
def shellScriptOnFile (name relPath : String) : List ValidationError :=
  if forbiddenShellExtensions.contains (lowerExt name) then
    [{ type := ErrType.forbiddenDirectory, path := relPath,
       message := "Shell scripts are forbidden. Use TypeScript for cross-platform automation (packages/dev-tools/src/).",
       severity := Severity.error }]
  else []

/-- `validateNoShellScripts`: full-tree walk with the husky+worktrees
skip set. -/
def validateNoShellScripts (root : FSListing) : List ValidationError :=
  emitAll noDirEmit (fun n p _ => shellScriptOnFile n p)
    (walkListing skipDirsWithHusky "." root)

/-! ## Helpers for packages-directory based rules -/

/-- Look up a child directory by name in a listing and return its contents;
`none` when the name is absent or resolves to a non-directory (so a
subsequent `readdir` would throw). -/
def childDirContents (l : FSListing) (n : String) : Option FSListing :=
  match l.toList.find? (fun e => entryName e == n) with
  | some (FSEntry.dir _ cs) => some cs
  | _ => none

/-- `existsSync(join(dir, n))`: an entry of any kind named `n` exists. -/
def hasChildNamed (l : FSListing) (n : String) : Bool :=
  l.toList.any (fun e => entryName e == n)

/-- Contents of `packages/<pkg>/test/fixtures` for a package entry, or
`none` when that chain is missing (the subsequent walk then visits
nothing). -/
def fixturesContents (cs : FSListing) : Option FSListing :=
  (childDirContents cs "test").bind (fun ts => childDirContents ts "fixtures")

/-! ## Rule: restricted /examples (`validateNoExamplesInPatternPackages`) -/

/-- `validateNoExamplesInPatternPackages`; `Except.error ()` models the
uncaught exception when `readdir(packages)` throws (only reached when the
pattern list is nonempty, because of the early return). -/
def validateNoExamplesInPatternPackages (config : ValidatorConfig)
    (root : FSListing) : Except Unit (List ValidationError) :=
  let patterns := config.noExamplesPatterns.getD []
  if patterns.isEmpty then Except.ok []
  else
    match childDirContents root "packages" with
    | none => Except.error ()
    | some pkgs =>
        Except.ok ((pkgs.toList.map (fun e =>
          match e with
          | FSEntry.dir n cs =>
              if patterns.any (fun p => p n) && hasChildNamed cs "examples" then
                [{ type := ErrType.forbiddenDirectory,
                   path := "packages/" ++ n ++ "/examples/",
                   message := "Package \"" ++ n ++ "\" matches a restricted pattern and must not have an /examples directory.",
                   severity := Severity.error }]
              else []
          | _ => [])).flatten)

/-! ## Rule: restricted /scripts (`validateScriptsLocation`) -/

/-- `validateScriptsLocation`; throws (models `Except.error ()`) when the
packages directory cannot be listed. -/
def validateScriptsLocation (config : ValidatorConfig)
    (root : FSListing) : Except Unit (List ValidationError) :=
  match childDirContents root "packages" with
  | none => Except.error ()
  | some pkgs =>
      let allowedScriptsPackages := config.allowedScriptsPackages.getD ["dev-tools"]
      Except.ok ((pkgs.toList.map (fun e =>
        match e with
        | FSEntry.dir n cs =>
            if allowedScriptsPackages.contains n then []
            else if hasChildNamed cs "scripts" then
              [{ type := ErrType.forbiddenDirectory,
                 path := "packages/" ++ n ++ "/scripts/",
                 message := "Only packages in allowedScriptsPackages may have /scripts directories. Move utilities to dev-tools package.",
                 severity := Severity.error }]
            else []
        | _ => [])).flatten)

/-! ## Rule: no staging directories (`validateNoStagingDirectories`) -/

/-- The `onDirectory` body of the staging check. -/
def stagingOnDir (name relPath : String) : List ValidationError :=
  if name == "staging" then
    [{ type := ErrType.forbiddenDirectory, path := relPath,
       message := "Staging directories should not be committed. Add to .gitignore and remove from git.",
       severity := Severity.error }]
  else []

/-- `validateNoStagingDirectories` via `forEachPackageFixturesDir`: walks
each package's `test/fixtures` (missing ⇒ empty walk), no skip set. -/
def validateNoStagingDirectories (root : FSListing) :
    Except Unit (List ValidationError) :=
  match childDirContents root "packages" with
  | none => Except.error ()
  | some pkgs =>
      Except.ok ((pkgs.toList.map (fun e =>
        match e with
        | FSEntry.dir n cs =>
            emitAll stagingOnDir noFileEmit
              (walkStart [] ("packages/" ++ n ++ "/test/fixtures")
                (fixturesContents cs))
        | _ => [])).flatten)

/-! ## Rule: test fixture sizes (`validateTestFixtureSizes`) -/

/-- `ALLOWED_LARGE_EXTENSIONS`. -/
def allowedLargeExtensions : List String :=
  [".zip", ".tar", ".gz", ".tgz", ".tar.gz"]

/-- Is the lowercased extension in the compressed-format allow-list? -/
def isCompressedName (name : String) : Bool :=
  allowedLargeExtensions.contains (lowerExt name)

/-- The `onFile` body of `validateTestFixtureSizes`.  `stats.size / 1024`
is an exact IEEE-double quotient for any real file size (division by a
power of two only shifts the exponent), so the float comparison
`sizeKB > MAX_SIZE_KB` holds exactly when `size > 100 * 1024` bytes, and
`Math.round(sizeKB)` (round half toward +∞ on this nonnegative exact value)
equals `⌊(size + 512) / 1024⌋`. -/
def fixtureSizeOnFile (name relPath : String) (size : Nat) :
    List ValidationError :=
  if 100 * 1024 < size then
    if !(isCompressedName name) then
      [{ type := ErrType.largeFile, path := relPath,
         message := "File is " ++ toString ((size + 512) / 1024) ++ "KB (>100KB). Compress large test fixtures or use external storage.",
         severity := Severity.warning }]
    else []
  else []

/-- `validateTestFixtureSizes` via `forEachPackageFixturesDir`. -/
def validateTestFixtureSizes (root : FSListing) :
    Except Unit (List ValidationError) :=
  match childDirContents root "packages" with
  | none => Except.error ()
  | some pkgs =>
      Except.ok ((pkgs.toList.map (fun e =>
        match e with
        | FSEntry.dir n cs =>
            emitAll noDirEmit fixtureSizeOnFile
              (walkStart [] ("packages/" ++ n ++ "/test/fixtures")
                (fixturesContents cs))
        | _ => [])).flatten)

/-! ## Orchestration, global accumulator, exit code -/

/-- `validate(config)`: the eight rules in source order, concatenating the
violations they push onto the shared list; `Except.error ()` models an
exception escaping a rule (then caught only at the top level). -/
def validate (config : ValidatorConfig) (root : FSListing) :
    Except Unit (List ValidationError) :=
  match validateNoExamplesInPatternPackages config root with
  | Except.error u => Except.error u
  | Except.ok v4 =>
    match validateScriptsLocation config root with
    | Except.error u => Except.error u
    | Except.ok v5 =>
      match validateNoStagingDirectories root with
      | Except.error u => Except.error u
      | Except.ok v7 =>
        match validateTestFixtureSizes root with
        | Except.error u => Except.error u
        | Except.ok v8 =>
            Except.ok
              (validateNoNestedPackageJson root ++
               validateSourceFileLocations config root ++
               validateTestFileNaming root ++
               v4 ++ v5 ++
               validateNoShellScripts root ++
               v7 ++ v8)

/-- A second `validate` call in the same process appends onto the
module-scoped `errors` array, whose prior contents `acc` survive. -/
def validateFrom (acc : List ValidationError) (config : ValidatorConfig)
    (root : FSListing) : Except Unit (List ValidationError) :=
  match validate config root with
  | Except.ok l => Except.ok (acc ++ l)
  | Except.error u => Except.error u

/-- `errors.some((e) => e.severity === 'error')`. -/
def hasErrors (l : List ValidationError) : Bool :=
  l.any (fun e => e.severity == Severity.error)

/-- The process exit status: `process.exit(1)` when an error-severity
violation was accumulated, implicit exit `0` otherwise, and
`process.exit(2)` from the top-level catch when an exception escaped. -/
def exitCode (r : Except Unit (List ValidationError)) : Nat :=
  match r with
  | Except.error _ => 2
  | Except.ok l => if hasErrors l then 1 else 0

/-- The severity/type pairing every rule maintains: `warning` exactly on
`large-file` violations. -/
def sevTypeInv (v : ValidationError) : Prop :=
  v.severity = Severity.warning ↔ v.type = ErrType.largeFile

/-! ## Helper lemmas -/

/-- `jsCharLower` never produces a dot from a non-dot character. -/
theorem jsCharLower_eq_dot {c : Char} (h : jsCharLower c = '.') : c = '.' := by
  unfold jsCharLower at h
  split at h <;> first
    | exact absurd h (by decide)
    | exact h

/-- Lower-casing a character list preserves the number of dots. -/
theorem count_dot_map_jsCharLower (l : List Char) :
    (l.map jsCharLower).count '.' = l.count '.' := by
  induction l with
  | nil => rfl
  | cons a t ih =>
      simp only [List.map_cons, List.count_cons, ih]
      by_cases h : a = '.'
      · subst h; rfl
      · have h2 : jsCharLower a ≠ '.' := fun hl => h (jsCharLower_eq_dot hl)
        simp [h, h2]

/-- The substring from the last dot onward contains at most one dot. -/
theorem extChars_count_dot (l : List Char) : (extChars l).count '.' ≤ 1 := by
  unfold extChars
  split
  · have h0 : ((l.reverse.takeWhile (fun c => c != '.')).reverse).count '.' = 0 := by
      rw [List.count_eq_zero]
      intro hmem
      rw [List.mem_reverse] at hmem
      have := List.mem_takeWhile_imp hmem
      simp at this
    simp [List.count_cons, h0]
  · have h0 : List.count '.' l = 0 := List.count_eq_zero.mpr (by assumption)
    omega

/-- The lowercased last-dot extension never contains two dots, hence can
never equal the `.tar.gz` entry of the compressed-format allow-list. -/
theorem lowerExt_ne_targz (n : String) : lowerExt n ≠ ".tar.gz" := by
  intro h
  have hl : (extChars n.toList).map jsCharLower = ".tar.gz".toList :=
    congrArg String.toList h
  have hc : ((extChars n.toList).map jsCharLower).count '.' ≤ 1 := by
    rw [count_dot_map_jsCharLower]
    exact extChars_count_dot _
  rw [hl] at hc
  have : (".tar.gz".toList.count '.') = 2 := by decide
  omega

/-- Two suffixes of one string: one is a suffix of the other, so distinct
fixed suffixes of equal or comparable length conflict. -/
theorem jsEndsWith_conflict {n a b : String}
    (ha : jsEndsWith n a = true) (hb : jsEndsWith n b = true)
    (hab : ¬ a.toList <:+ b.toList) (hba : ¬ b.toList <:+ a.toList) : False := by
  unfold jsEndsWith at ha hb
  rw [List.isSuffixOf_iff_suffix] at ha hb
  rcases List.suffix_or_suffix_of_suffix ha hb with h | h
  · exact hab h
  · exact hba h

/-- Anything in the output of `emitAll` comes from one of the two
per-entry emitters. -/
theorem mem_emitAll {onDir : String → String → List ValidationError}
    {onFile : String → String → Nat → List ValidationError}
    {evs : List WalkEvent} {v : ValidationError}
    (h : v ∈ emitAll onDir onFile evs) :
    (∃ n p, v ∈ onDir n p) ∨ (∃ n p s, v ∈ onFile n p s) := by
  unfold emitAll at h
  rw [List.mem_flatten] at h
  obtain ⟨l, hl, hv⟩ := h
  rw [List.mem_map] at hl
  obtain ⟨e, _, rfl⟩ := hl
  cases e with
  | dirVisit n p => exact Or.inl ⟨n, p, hv⟩
  | fileVisit n p s => exact Or.inr ⟨n, p, s, hv⟩

/-- Membership in `if c then [lit] else []` forces equality with the
pushed literal. -/
theorem mem_ite_singleton {c : Prop} [Decidable c] {v lit : ValidationError}
    (h : v ∈ if c then [lit] else ([] : List ValidationError)) : v = lit := by
  split at h
  · exact List.mem_singleton.mp h
  · cases h

/-- Every directory callback of a walk names a directory outside the
skip set (joint statement for one entry and for a listing). -/
theorem dirVisit_not_skipped {skip : List String} :
    (∀ (rel : String) (e : FSEntry) (n p : String),
        WalkEvent.dirVisit n p ∈ walkEntry skip rel e →
        skip.contains n = false)
    ∧ (∀ (rel : String) (l : FSListing) (n p : String),
        WalkEvent.dirVisit n p ∈ walkListing skip rel l →
        skip.contains n = false) := by
  constructor
  · intro rel e
    refine walkEntry.induct skip
      (fun rel e => ∀ (n p : String),
        WalkEvent.dirVisit n p ∈ walkEntry skip rel e →
        skip.contains n = false)
      (fun rel l => ∀ (n p : String),
        WalkEvent.dirVisit n p ∈ walkListing skip rel l →
        skip.contains n = false)
      ?_ ?_ ?_ ?_ ?_ ?_ rel e
    · intro rel nm size n p h
      simp [walkEntry] at h
    · intro rel nm cs hs n p h
      simp only [walkEntry, if_pos hs] at h
      cases h
    · intro rel nm cs hs ih n p h
      simp only [walkEntry, if_neg hs] at h
      rcases List.mem_cons.mp h with h | h
      · injection h with h1 h2
        subst h1
        simpa using hs
      · exact ih n p h
    · intro rel nm sub n p h
      simp [walkEntry] at h
    · intro rel n p h
      simp [walkListing] at h
    · intro rel e t ih1 ih2 n p h
      simp only [walkListing] at h
      rcases List.mem_append.mp h with h | h
      · exact ih1 n p h
      · exact ih2 n p h
  · intro rel l
    refine walkListing.induct skip
      (fun rel e => ∀ (n p : String),
        WalkEvent.dirVisit n p ∈ walkEntry skip rel e →
        skip.contains n = false)
      (fun rel l => ∀ (n p : String),
        WalkEvent.dirVisit n p ∈ walkListing skip rel l →
        skip.contains n = false)
      ?_ ?_ ?_ ?_ ?_ ?_ rel l
    · intro rel nm size n p h
      simp [walkEntry] at h
    · intro rel nm cs hs n p h
      simp only [walkEntry, if_pos hs] at h
      cases h
    · intro rel nm cs hs ih n p h
      simp only [walkEntry, if_neg hs] at h
      rcases List.mem_cons.mp h with h | h
      · injection h with h1 h2
        subst h1
        simpa using hs
      · exact ih n p h
    · intro rel nm sub n p h
      simp [walkEntry] at h
    · intro rel n p h
      simp [walkListing] at h
    · intro rel e t ih1 ih2 n p h
      simp only [walkListing] at h
      rcases List.mem_append.mp h with h | h
      · exact ih1 n p h
      · exact ih2 n p h

/-! ## Per-rule severity/type shape lemmas -/

/-- Violations of the nested-manifest check are forbidden-directory errors. -/
theorem sevTypeInv_nestedPJ {v : ValidationError} {n p : String}
    (h : v ∈ nestedPackageJsonOnFile n p) : sevTypeInv v := by
  unfold nestedPackageJsonOnFile at h
  dsimp only at h
  split at h
  · have := mem_ite_singleton h
    subst this
    exact ⟨nofun, nofun⟩
  · cases h

/-- Violations of the source-location check are structural errors. -/
theorem sevTypeInv_sourceLoc {config : ValidatorConfig} {v : ValidationError}
    {n p : String} (h : v ∈ sourceLocationOnFile config n p) : sevTypeInv v := by
  unfold sourceLocationOnFile at h
  dsimp only at h
  split at h
  · cases h
  · split at h
    · cases h
    · split at h
      · cases h
      · split at h
        · cases h
        · have := List.mem_singleton.mp h
          subst this
          exact ⟨nofun, nofun⟩

/-- Violations of the naming check are structural errors. -/
theorem sevTypeInv_naming {v : ValidationError} {n p : String}
    (h : v ∈ testFileNamingOnFile n p) : sevTypeInv v := by
  unfold testFileNamingOnFile at h
  dsimp only at h
  simp only [List.mem_append] at h
  rcases h with ((h | h) | h) | h <;>
    · have := mem_ite_singleton h
      subst this
      exact ⟨nofun, nofun⟩

/-- Violations of the shell-script check are forbidden-directory errors. -/
theorem sevTypeInv_shell {v : ValidationError} {n p : String}
    (h : v ∈ shellScriptOnFile n p) : sevTypeInv v := by
  unfold shellScriptOnFile at h
  have := mem_ite_singleton h
  subst this
  exact ⟨nofun, nofun⟩

/-- Violations of the staging check are forbidden-directory errors. -/
theorem sevTypeInv_staging {v : ValidationError} {n p : String}
    (h : v ∈ stagingOnDir n p) : sevTypeInv v := by
  unfold stagingOnDir at h
  have := mem_ite_singleton h
  subst this
  exact ⟨nofun, nofun⟩

/-- Violations of the fixture-size check are large-file warnings. -/
theorem sevTypeInv_fixtureSize {v : ValidationError} {n p : String} {s : Nat}
    (h : v ∈ fixtureSizeOnFile n p s) : sevTypeInv v := by
  unfold fixtureSizeOnFile at h
  split at h
  · have := mem_ite_singleton h
    subst this
    exact ⟨fun _ => rfl, fun _ => rfl⟩
  · cases h

/-- Lift a file-emitter invariant over a whole walk. -/
theorem sevTypeInv_emitFile {f : String → String → Nat → List ValidationError}
    (hf : ∀ n p s v, v ∈ f n p s → sevTypeInv v) {evs : List WalkEvent}
    {v : ValidationError} (h : v ∈ emitAll noDirEmit f evs) : sevTypeInv v := by
  rcases mem_emitAll h with ⟨n, p, hv⟩ | ⟨n, p, s, hv⟩
  · cases hv
  · exact hf n p s v hv

/-- Lift a directory-emitter invariant over a whole walk. -/
theorem sevTypeInv_emitDir {f : String → String → List ValidationError}
    (hf : ∀ n p v, v ∈ f n p → sevTypeInv v) {evs : List WalkEvent}
    {v : ValidationError} (h : v ∈ emitAll f noFileEmit evs) : sevTypeInv v := by
  rcases mem_emitAll h with ⟨n, p, hv⟩ | ⟨n, p, s, hv⟩
  · exact hf n p v hv
  · cases hv

/-- Violations of the examples rule are forbidden-directory errors. -/
theorem sevTypeInv_examples {config : ValidatorConfig} {root : FSListing}
    {l : List ValidationError}
    (h : validateNoExamplesInPatternPackages config root = Except.ok l) :
    ∀ v ∈ l, sevTypeInv v := by
  intro v hv
  unfold validateNoExamplesInPatternPackages at h
  dsimp only at h
  by_cases hp : (config.noExamplesPatterns.getD []).isEmpty = true
  · rw [if_pos hp] at h
    injection h with h
    subst h
    cases hv
  · rw [if_neg hp] at h
    split at h
    · simp at h
    · injection h with h
      subst h
      rw [List.mem_flatten] at hv
      obtain ⟨ll, hll, hvl⟩ := hv
      rw [List.mem_map] at hll
      obtain ⟨e, _, rfl⟩ := hll
      cases e with
      | dir nm cs =>
          have := mem_ite_singleton hvl
          subst this
          exact ⟨nofun, nofun⟩
      | file nm s => cases hvl
      | other nm sub => cases hvl

/-- Violations of the scripts rule are forbidden-directory errors. -/
theorem sevTypeInv_scripts {config : ValidatorConfig} {root : FSListing}
    {l : List ValidationError}
    (h : validateScriptsLocation config root = Except.ok l) :
    ∀ v ∈ l, sevTypeInv v := by
  intro v hv
  unfold validateScriptsLocation at h
  split at h
  · simp at h
  · dsimp only at h
    injection h with h
    subst h
    rw [List.mem_flatten] at hv
    obtain ⟨ll, hll, hvl⟩ := hv
    rw [List.mem_map] at hll
    obtain ⟨e, _, rfl⟩ := hll
    cases e with
    | dir nm cs =>
        simp only [List.mem_ite_nil_left] at hvl
        have := mem_ite_singleton hvl.2
        subst this
        exact ⟨nofun, nofun⟩
    | file nm s => cases hvl
    | other nm sub => cases hvl

/-- Violations of the staging rule are forbidden-directory errors. -/
theorem sevTypeInv_stagingRule {root : FSListing} {l : List ValidationError}
    (h : validateNoStagingDirectories root = Except.ok l) :
    ∀ v ∈ l, sevTypeInv v := by
  intro v hv
  unfold validateNoStagingDirectories at h
  split at h
  · simp at h
  · injection h with h
    subst h
    rw [List.mem_flatten] at hv
    obtain ⟨ll, hll, hvl⟩ := hv
    rw [List.mem_map] at hll
    obtain ⟨e, _, rfl⟩ := hll
    cases e with
    | dir nm cs =>
        exact sevTypeInv_emitDir (fun n p v hv => sevTypeInv_staging hv) hvl
    | file nm s => cases hvl
    | other nm sub => cases hvl

/-- Violations of the fixture-size rule are large-file warnings. -/
theorem sevTypeInv_fixtureRule {root : FSListing} {l : List ValidationError}
    (h : validateTestFixtureSizes root = Except.ok l) :
    ∀ v ∈ l, sevTypeInv v := by
  intro v hv
  unfold validateTestFixtureSizes at h
  split at h
  · simp at h
  · injection h with h
    subst h
    rw [List.mem_flatten] at hv
    obtain ⟨ll, hll, hvl⟩ := hv
    rw [List.mem_map] at hll
    obtain ⟨e, _, rfl⟩ := hll
    cases e with
    | dir nm cs =>
        exact sevTypeInv_emitFile (fun n p s v hv => sevTypeInv_fixtureSize hv) hvl
    | file nm s => cases hvl
    | other nm sub => cases hvl

/-! ## Claim theorems -/

/-- Converter: a computed `isSuffixOf = false` refutes the suffix relation. -/
theorem not_suffix_of_isSuffixOf_false {a b : List Char}
    (h : a.isSuffixOf b = false) : ¬ a <:+ b := by
  intro hs
  have ht := List.isSuffixOf_iff_suffix.mpr hs
  rw [h] at ht
  cases ht

/-- C5: for every directory name in the walk's `skipDirs` set, the walker
never invokes `onDirectory` for a directory with that name, and the whole
subtree beneath such a directory contributes no callback at all (dropping
the skipped directory leaves the event stream unchanged). -/
theorem skip_dirs_pruned :
    (∀ (skip : List String) (rel n : String) (cs rest : FSListing),
        skip.contains n = true →
        walkListing skip rel (FSListing.cons (FSEntry.dir n cs) rest) =
          walkListing skip rel rest)
    ∧ (∀ (skip : List String) (rel : String) (l : FSListing) (n p : String),
        WalkEvent.dirVisit n p ∈ walkListing skip rel l →
        skip.contains n = false) := by
  constructor
  · intro skip rel n cs rest h
    simp only [walkListing, walkEntry, if_pos h, List.nil_append]
  · intro skip rel l n p h
    exact (dirVisit_not_skipped).2 rel l n p h

/-- Witness for C5 at a concrete tree: skipping `node_modules` erases the
directory and its subtree from the walk, and a visited directory is not in
the skip set. -/
theorem skip_dirs_pruned_witness :
    (walkListing ["node_modules"] "."
        (listing [FSEntry.dir "node_modules" (listing [FSEntry.file "a.ts" 1]),
                  FSEntry.file "b.ts" 2])
      = walkListing ["node_modules"] "." (listing [FSEntry.file "b.ts" 2]))
    ∧ (["dist"] : List String).contains "fixtures" = false :=
  ⟨skip_dirs_pruned.1 ["node_modules"] "." "node_modules"
      (listing [FSEntry.file "a.ts" 1]) (listing [FSEntry.file "b.ts" 2])
      (by decide),
   skip_dirs_pruned.2 ["dist"] "." (listing [FSEntry.dir "fixtures" FSListing.nil])
      "fixtures" "fixtures" (by decide)⟩

/-- C6: a starting directory that does not exist or cannot be read yields a
walk with zero callback invocations and no error, so any rule run over that
walk appends nothing to the shared violation list. -/
theorem missing_start_dir_walk_empty :
    ∀ (skip : List String) (rel : String)
      (onDir : String → String → List ValidationError)
      (onFile : String → String → Nat → List ValidationError),
      walkStart skip rel none = []
      ∧ emitAll onDir onFile (walkStart skip rel none) = [] := by
  intro skip rel onDir onFile
  exact ⟨rfl, rfl⟩

/-- C10: an entry that is neither a directory nor a regular file (symlink,
socket, FIFO, ...) receives no callback and is never descended into:
dropping it leaves the walk's event stream unchanged, so no rule can emit
a violation for it. -/
theorem non_file_non_dir_entries_skipped :
    ∀ (skip : List String) (rel n : String) (sub rest : FSListing),
      walkEntry skip rel (FSEntry.other n sub) = []
      ∧ walkListing skip rel (FSListing.cons (FSEntry.other n sub) rest) =
          walkListing skip rel rest := by
  intro skip rel n sub rest
  exact ⟨rfl, by simp only [walkListing, walkEntry, List.nil_append]⟩

/-- C2: the run's exit status is 1 exactly when an accumulated violation has
severity `error`; warnings alone exit 0; an exception escaping to the top
level exits 2. -/
theorem exit_code_contract :
    ∀ (config : ValidatorConfig) (root : FSListing),
      (∀ l, validate config root = Except.ok l →
        ((∃ v ∈ l, v.severity = Severity.error) →
            exitCode (validate config root) = 1)
        ∧ ((∀ v ∈ l, v.severity = Severity.warning) →
            exitCode (validate config root) = 0))
      ∧ (validate config root = Except.error () →
          exitCode (validate config root) = 2) := by
  intro config root
  constructor
  · intro l hok
    constructor
    · rintro ⟨v, hv, hsev⟩
      rw [hok]
      have : hasErrors l = true := by
        unfold hasErrors
        rw [List.any_eq_true]
        exact ⟨v, hv, by simp [hsev]⟩
      show (if hasErrors l = true then 1 else 0) = 1
      rw [this]
      rfl
    · intro hall
      rw [hok]
      have : hasErrors l = false := by
        unfold hasErrors
        rw [List.any_eq_false]
        intro v hv
        have := hall v hv
        simp [this]
      show (if hasErrors l = true then 1 else 0) = 0
      rw [this]
      rfl
  · intro herr
    rw [herr]
    rfl

/-- Witness for C2 at concrete trees: a shell-script violation (an error)
exits 1, a clean tree exits 0, and a tree without a readable `packages`
directory makes a rule throw, exiting 2. -/
theorem exit_code_contract_witness :
    exitCode (validate emptyConfig
        (listing [FSEntry.dir "packages" FSListing.nil, FSEntry.file "run.sh" 1])) = 1
    ∧ exitCode (validate emptyConfig
        (listing [FSEntry.dir "packages" FSListing.nil])) = 0
    ∧ exitCode (validate emptyConfig FSListing.nil) = 2 :=
  ⟨((exit_code_contract emptyConfig
      (listing [FSEntry.dir "packages" FSListing.nil, FSEntry.file "run.sh" 1])).1
      [⟨ErrType.forbiddenDirectory, "run.sh",
        "Shell scripts are forbidden. Use TypeScript for cross-platform automation (packages/dev-tools/src/).",
        Severity.error⟩] rfl).1
      ⟨⟨ErrType.forbiddenDirectory, "run.sh",
        "Shell scripts are forbidden. Use TypeScript for cross-platform automation (packages/dev-tools/src/).",
        Severity.error⟩, by decide, rfl⟩,
   ((exit_code_contract emptyConfig
      (listing [FSEntry.dir "packages" FSListing.nil])).1 [] rfl).2
      (by intro v hv; cases hv),
   (exit_code_contract emptyConfig FSListing.nil).2 rfl⟩

/-- C1: for every file named `package.json` seen by the nested-manifest
rule, no violation is emitted iff its normalized relative path is exactly
`package.json`, matches `packages/<name>/package.json`, or lies under
`packages/<name>/test/fixtures/`; any other location yields exactly one
`forbidden-directory` violation of severity `error`. -/
theorem nested_package_json_classification :
    ∀ (name relPath : String),
      nestedPackageJsonOnFile name relPath =
        if name = "package.json"
            ∧ ¬(normalizeSep relPath = "package.json"
                ∨ isInPackagesDirPath (normalizeSep relPath) = true
                ∨ isInTestFixturesPath (normalizeSep relPath) = true) then
          [⟨ErrType.forbiddenDirectory, relPath,
            "Nested package.json detected. Only root, packages/*/, and test/fixtures/ can have package.json files.",
            Severity.error⟩]
        else [] := by
  intro name relPath
  by_cases hn : name = "package.json" <;>
  by_cases h1 : normalizeSep relPath = "package.json" <;>
  by_cases h2 : isInPackagesDirPath (normalizeSep relPath) = true <;>
  by_cases h3 : isInTestFixturesPath (normalizeSep relPath) = true <;>
    simp [nestedPackageJsonOnFile, hn, h1, h2, h3]

/-- C3: the fixture-size check emits exactly one `large-file` warning iff
the size in kilobytes strictly exceeds 100 and the lowercased extension is
not in the compressed-format allow-list; a file of exactly 100 KB emits
nothing, and allow-listed extensions emit nothing at any size. -/
theorem fixture_size_rule :
    ∀ (name relPath : String) (size : Nat),
      (fixtureSizeOnFile name relPath size =
        if (100 : ℚ) < (size : ℚ) / 1024 ∧ ¬ lowerExt name ∈ allowedLargeExtensions then
          [⟨ErrType.largeFile, relPath,
            "File is " ++ toString ((size + 512) / 1024) ++ "KB (>100KB). Compress large test fixtures or use external storage.",
            Severity.warning⟩]
        else [])
      ∧ fixtureSizeOnFile name relPath (100 * 1024) = [] := by
  intro name relPath size
  have harith : ((100 : ℚ) < (size : ℚ) / 1024) ↔ (100 * 1024 < size) := by
    rw [lt_div_iff₀ (by norm_num : (0 : ℚ) < 1024)]
    constructor
    · intro h
      exact_mod_cast h
    · intro h
      exact_mod_cast h
  have hmem : isCompressedName name = true ↔ lowerExt name ∈ allowedLargeExtensions := by
    unfold isCompressedName
    exact List.elem_iff
  constructor
  · by_cases hs : 100 * 1024 < size <;> by_cases hc : isCompressedName name = true <;>
      simp [fixtureSizeOnFile, hs, hc, harith, ← hmem]
  · simp [fixtureSizeOnFile]

/-- Two suffix requirements that conflict (neither string is a suffix of
the other) cannot both hold of one filename. -/
theorem ends_conflict (n : String) {s1 s2 : String}
    (h12 : s1.toList.isSuffixOf s2.toList = false)
    (h21 : s2.toList.isSuffixOf s1.toList = false)
    (e1 : jsEndsWith n s1 = true) (e2 : jsEndsWith n s2 = true) : False :=
  jsEndsWith_conflict e1 e2 (not_suffix_of_isSuffixOf_false h12)
    (not_suffix_of_isSuffixOf_false h21)

/-- C9: both extension tests depend only on the lowercased substring from
the last dot (so matching is case-insensitive: `.ZIP`, `.SH` behave like
`.zip`, `.sh`), no filename's computed extension can ever equal the
`.tar.gz` allow-list entry, and `x.tar.gz` is exempted via `.gz`. -/
theorem extension_matching_lowercased :
    (∀ n1 n2 : String, lowerExt n1 = lowerExt n2 →
        isCompressedName n1 = isCompressedName n2
        ∧ forbiddenShellExtensions.contains (lowerExt n1) =
            forbiddenShellExtensions.contains (lowerExt n2))
    ∧ isCompressedName "data.ZIP" = true
    ∧ forbiddenShellExtensions.contains (lowerExt "run.SH") = true
    ∧ (∀ n : String, lowerExt n ≠ ".tar.gz")
    ∧ lowerExt "x.tar.gz" = ".gz"
    ∧ isCompressedName "x.tar.gz" = true := by
  refine ⟨?_, by decide, by decide, lowerExt_ne_targz, by decide, by decide⟩
  intro n1 n2 h
  unfold isCompressedName
  rw [h]
  exact ⟨rfl, rfl⟩

/-- Witness for C9 at concrete names with equal lowercased extensions. -/
theorem extension_matching_lowercased_witness :
    isCompressedName "a.ZIP" = isCompressedName "b.zip" :=
  (extension_matching_lowercased.1 "a.ZIP" "b.zip" (by decide)).1

/-- The four naming checks are pairwise exclusive: one file yields at most
one naming violation. -/
theorem testFileNaming_at_most_one :
    ∀ (name relPath : String), (testFileNamingOnFile name relPath).length ≤ 1 := by
  intro name relPath
  unfold testFileNamingOnFile
  dsimp only
  by_cases ha : jsEndsWith name ".spec.ts" = true
  · have hb : jsEndsWith name ".integration.test.ts" = false :=
      Bool.eq_false_iff.mpr
        (fun ht => ends_conflict name (by decide) (by decide) ha ht)
    have hc : jsEndsWith name ".system.test.ts" = false :=
      Bool.eq_false_iff.mpr
        (fun ht => ends_conflict name (by decide) (by decide) ha ht)
    have hd : jsEndsWith name ".test.ts" = false :=
      Bool.eq_false_iff.mpr
        (fun ht => ends_conflict name (by decide) (by decide) ha ht)
    simp [ha, hb, hc, hd]
  · have ha' : jsEndsWith name ".spec.ts" = false := Bool.eq_false_iff.mpr ha
    by_cases hb : jsEndsWith name ".integration.test.ts" = true
    · have hc : jsEndsWith name ".system.test.ts" = false :=
        Bool.eq_false_iff.mpr
          (fun ht => ends_conflict name (by decide) (by decide) hb ht)
      simp [ha', hb, hc]
      split <;> simp
    · have hb' : jsEndsWith name ".integration.test.ts" = false :=
        Bool.eq_false_iff.mpr hb
      by_cases hcc : jsEndsWith name ".system.test.ts" = true
      · simp [ha', hb', hcc]
        split <;> simp
      · have hc' : jsEndsWith name ".system.test.ts" = false :=
          Bool.eq_false_iff.mpr hcc
        simp [ha', hb', hc']
        split <;> simp

/-- C4 counterexample: no single file (filename and location) can ever
trigger more than one of the four naming checks in one run — the claimed
double-triggering file does not exist. -/
theorem naming_checks_never_double :
    ¬ ∃ (name relPath : String), 2 ≤ (testFileNamingOnFile name relPath).length := by
  rintro ⟨name, relPath, h2⟩
  have := testFileNaming_at_most_one name relPath
  omega

/-- C4 amended: the four naming checks are independent — each can fire on
its own, witnessed by one concrete file per check — but they are pairwise
mutually exclusive, so a single file triggers at most one of them. -/
theorem naming_checks_independent_but_exclusive :
    (testFileNamingOnFile "a.spec.ts" "packages/p/test/a.spec.ts" =
      [⟨ErrType.structuralViolation, "packages/p/test/a.spec.ts",
        "Use .test.ts instead of .spec.ts for consistency.", Severity.error⟩])
    ∧ (testFileNamingOnFile "a.integration.test.ts" "packages/p/src/a.integration.test.ts" =
      [⟨ErrType.structuralViolation, "packages/p/src/a.integration.test.ts",
        "Integration tests must be in test/integration/ directory.", Severity.error⟩])
    ∧ (testFileNamingOnFile "a.system.test.ts" "packages/p/src/a.system.test.ts" =
      [⟨ErrType.structuralViolation, "packages/p/src/a.system.test.ts",
        "System tests must be in test/system/ directory.", Severity.error⟩])
    ∧ (testFileNamingOnFile "a.test.ts" "packages/p/test/integration/a.test.ts" =
      [⟨ErrType.structuralViolation, "packages/p/test/integration/a.test.ts",
        "Unit tests in integration/system directories must use .integration.test.ts or .system.test.ts suffix.",
        Severity.error⟩])
    ∧ (∀ (name relPath : String), (testFileNamingOnFile name relPath).length ≤ 1) :=
  ⟨rfl, rfl, rfl, rfl, testFileNaming_at_most_one⟩

/-- C8: every violation record any rule appends has severity `warning` iff
its type is `large-file`; all `forbidden-directory` and
`structural-violation` records, from every rule, carry severity `error`. -/
theorem severity_type_invariant :
    ∀ (config : ValidatorConfig) (root : FSListing) (l : List ValidationError),
      validate config root = Except.ok l →
      ∀ v ∈ l, (v.severity = Severity.warning ↔ v.type = ErrType.largeFile) := by
  intro config root l h v hv
  unfold validate at h
  split at h
  · simp at h
  · rename_i v4 heq4
    split at h
    · simp at h
    · rename_i v5 heq5
      split at h
      · simp at h
      · rename_i v7 heq7
        split at h
        · simp at h
        · rename_i v8 heq8
          injection h with h
          subst h
          simp only [List.mem_append] at hv
          rcases hv with ((((((hv | hv) | hv) | hv) | hv) | hv) | hv) | hv
          · exact sevTypeInv_emitFile
              (fun n p s v hv => sevTypeInv_nestedPJ hv) hv
          · exact sevTypeInv_emitFile
              (fun n p s v hv => sevTypeInv_sourceLoc hv) hv
          · exact sevTypeInv_emitFile
              (fun n p s v hv => sevTypeInv_naming hv) hv
          · exact sevTypeInv_examples heq4 v hv
          · exact sevTypeInv_scripts heq5 v hv
          · exact sevTypeInv_emitFile
              (fun n p s v hv => sevTypeInv_shell hv) hv
          · exact sevTypeInv_stagingRule heq7 v hv
          · exact sevTypeInv_fixtureRule heq8 v hv

/-- Witness for C8 on a concrete run producing one shell-script error. -/
theorem severity_type_invariant_witness :
    ((⟨ErrType.forbiddenDirectory, "run.sh",
        "Shell scripts are forbidden. Use TypeScript for cross-platform automation (packages/dev-tools/src/).",
        Severity.error⟩ : ValidationError).severity = Severity.warning
     ↔ (⟨ErrType.forbiddenDirectory, "run.sh",
        "Shell scripts are forbidden. Use TypeScript for cross-platform automation (packages/dev-tools/src/).",
        Severity.error⟩ : ValidationError).type = ErrType.largeFile) :=
  severity_type_invariant emptyConfig
    (listing [FSEntry.dir "packages" FSListing.nil, FSEntry.file "run.sh" 1])
    [⟨ErrType.forbiddenDirectory, "run.sh",
      "Shell scripts are forbidden. Use TypeScript for cross-platform automation (packages/dev-tools/src/).",
      Severity.error⟩] rfl
    ⟨ErrType.forbiddenDirectory, "run.sh",
      "Shell scripts are forbidden. Use TypeScript for cross-platform automation (packages/dev-tools/src/).",
      Severity.error⟩ (by decide)

/-- C7 counterexample: within one process the module-scoped `errors` array
persists, so a second `validate` call on the same unmodified tree observes
a doubled list, not an identical one — the validation function does carry
hidden state between in-process runs. -/
theorem validator_rerun_not_stateless :
    validate emptyConfig
        (listing [FSEntry.dir "packages" FSListing.nil, FSEntry.file "run.sh" 1]) =
      Except.ok [⟨ErrType.forbiddenDirectory, "run.sh",
        "Shell scripts are forbidden. Use TypeScript for cross-platform automation (packages/dev-tools/src/).",
        Severity.error⟩]
    ∧ validateFrom
        [⟨ErrType.forbiddenDirectory, "run.sh",
          "Shell scripts are forbidden. Use TypeScript for cross-platform automation (packages/dev-tools/src/).",
          Severity.error⟩] emptyConfig
        (listing [FSEntry.dir "packages" FSListing.nil, FSEntry.file "run.sh" 1]) =
      Except.ok [⟨ErrType.forbiddenDirectory, "run.sh",
        "Shell scripts are forbidden. Use TypeScript for cross-platform automation (packages/dev-tools/src/).",
        Severity.error⟩,
       ⟨ErrType.forbiddenDirectory, "run.sh",
        "Shell scripts are forbidden. Use TypeScript for cross-platform automation (packages/dev-tools/src/).",
        Severity.error⟩]
    ∧ ([⟨ErrType.forbiddenDirectory, "run.sh",
        "Shell scripts are forbidden. Use TypeScript for cross-platform automation (packages/dev-tools/src/).",
        Severity.error⟩,
       ⟨ErrType.forbiddenDirectory, "run.sh",
        "Shell scripts are forbidden. Use TypeScript for cross-platform automation (packages/dev-tools/src/).",
        Severity.error⟩] : List ValidationError) ≠
      [⟨ErrType.forbiddenDirectory, "run.sh",
        "Shell scripts are forbidden. Use TypeScript for cross-platform automation (packages/dev-tools/src/).",
        Severity.error⟩] :=
  ⟨rfl, rfl, by decide⟩

/-- C7 amended: the validator is a deterministic function of the tree —
two fresh-process runs (empty starting accumulator) produce the same list —
but within one process the accumulator persists, so a second call yields
the first list concatenated with an identical copy. -/
theorem validator_deterministic_but_accumulates :
    ∀ (config : ValidatorConfig) (root : FSListing) (l : List ValidationError),
      validate config root = Except.ok l →
      validateFrom [] config root = Except.ok l
      ∧ validateFrom l config root = Except.ok (l ++ l) := by
  intro config root l h
  unfold validateFrom
  rw [h]
  exact ⟨by simp, rfl⟩

/-- Witness for C7's amended statement on a concrete one-violation tree. -/
theorem validator_deterministic_but_accumulates_witness :
    validateFrom [] emptyConfig
        (listing [FSEntry.dir "packages" FSListing.nil, FSEntry.file "run.sh" 1]) =
      Except.ok [⟨ErrType.forbiddenDirectory, "run.sh",
        "Shell scripts are forbidden. Use TypeScript for cross-platform automation (packages/dev-tools/src/).",
        Severity.error⟩]
    ∧ validateFrom
        [⟨ErrType.forbiddenDirectory, "run.sh",
          "Shell scripts are forbidden. Use TypeScript for cross-platform automation (packages/dev-tools/src/).",
          Severity.error⟩] emptyConfig
        (listing [FSEntry.dir "packages" FSListing.nil, FSEntry.file "run.sh" 1]) =
      Except.ok
        ([⟨ErrType.forbiddenDirectory, "run.sh",
          "Shell scripts are forbidden. Use TypeScript for cross-platform automation (packages/dev-tools/src/).",
          Severity.error⟩] ++
         [⟨ErrType.forbiddenDirectory, "run.sh",
          "Shell scripts are forbidden. Use TypeScript for cross-platform automation (packages/dev-tools/src/).",
          Severity.error⟩]) :=
  validator_deterministic_but_accumulates emptyConfig
    (listing [FSEntry.dir "packages" FSListing.nil, FSEntry.file "run.sh" 1])
    [⟨ErrType.forbiddenDirectory, "run.sh",
      "Shell scripts are forbidden. Use TypeScript for cross-platform automation (packages/dev-tools/src/).",
      Severity.error⟩] rfl

end RepoValidate
